import Mathlib

/-!
Verification of the TurboX build pipeline (route extraction, validation,
code generation, build coordination) against its natural-language
specification.

The development shallowly embeds the Python modules
`turbox/build/extractor.py`, `turbox/validator.py`,
`turbox/build/transpiler.py` and `turbox/build/__init__.py`.
The Python `ast` node shapes that those modules inspect are embedded as the
inductive types `Expr`, `JoinedValue` and `Stmt` below; a module is a
`List Stmt`.  Machine-level details the Python code never branches on
(source locations, the `ast` node fields that are never read) are omitted;
every field the code does read is present.

Conventions:
* Python `dict` used as a constant table is an association list where an
  update prepends, so the most recent binding shadows older ones.
* Python `str(x)` on an `ast.Constant` payload is `constantStr`.
* `str.upper()` is `pyUpper`, `name.split('.')[0]` is `firstDotComponent`,
  both written over `List Char` so that they evaluate inside the kernel.
* `ast.NodeVisitor` dispatch is reproduced by `visitStmt` / `visitStmts`:
  `visit_Assign` and `visit_FunctionDef` each end in `generic_visit`, so
  child statements (including assignments nested in function bodies) are
  re-dispatched, exactly as in the source.
* `ast.walk` enumerates nodes breadth-first; `walkLayers` reproduces that
  level order over statements (the statement total size bounds the number
  of layers, which makes the recursion structural on that fuel).  Only the
  interleaving of expression-level lambda warnings relative to statement
  diagnostics differs from CPython's walk, which no stated property
  observes.
* Diagnostics keep their message text; line/column/suggestion/context
  fields carry no information any claim observes and are omitted.
-/

/-- Payload of a Python constant as it is stored verbatim in a route's
`methods` list (`elt.value` for `ast.Constant` elements). -/
inductive PyVal where
  | str (s : String)
  | int (n : Int)
  | noneV
  deriving DecidableEq, Repr

mutual
/-- Embedded Python expression nodes — exactly the shapes the extractor,
validator and transpiler branch on.  `constStr`/`constInt`/`constNone` are
`ast.Constant` with a `str`/`int`/`None` payload; `binAdd` is
`ast.BinOp(op=Add)`; `joined` is `ast.JoinedStr`; `call` is `ast.Call`
(keyword arguments as `(arg, value)` pairs); `attr` is `ast.Attribute`;
`listE` is `ast.List`; `lam` is `ast.Lambda` (only its presence is ever
observed). -/
inductive Expr where
  | constStr (s : String)
  | constInt (n : Int)
  | constNone
  | name (id : String)
  | binAdd (l r : Expr)
  | joined (parts : List JoinedValue)
  | call (fn : Expr) (args : List Expr) (kwargs : List (Option String × Expr))
  | attr (obj : Expr) (field : String)
  | listE (elts : List Expr)
  | lam (body : Expr)
  deriving Repr
/-- An element of `ast.JoinedStr.values`: either a literal `ast.Constant`
segment (always a string in a parsed f-string) or an `ast.FormattedValue`
wrapping an expression. -/
inductive JoinedValue where
  | str (s : String)
  | formatted (e : Expr)
  deriving Repr
end

/-- Embedded Python statement nodes.  Function arguments are
`(name, annotation)` pairs, mirroring the `arg.arg` / `arg.annotation`
fields the validator reads.  `importStmt` keeps the dotted module names of
`ast.Import`; `importFrom` keeps `module` and the imported alias names. -/
inductive Stmt where
  | assign (targets : List Expr) (value : Expr)
  | functionDef (nm : String) (args : List (String × Option Expr))
      (decorators : List Expr) (returns : Option Expr) (body : List Stmt)
  | asyncFunctionDef (nm : String) (args : List (String × Option Expr))
      (decorators : List Expr) (returns : Option Expr) (body : List Stmt)
  | importFrom (module : Option String) (names : List String)
  | importStmt (names : List String)
  | ret (value : Option Expr)
  | exprStmt (e : Expr)
  | passStmt
  deriving Repr

/-- The `ast.FunctionDef` node stored under the `'function'` key of a route
dictionary. -/
structure FuncDef where
  nm : String
  args : List (String × Option Expr)
  decorators : List Expr
  returns : Option Expr
  body : List Stmt
  deriving Repr

/-- A route dictionary as built by `RouteExtractor.visit_FunctionDef`:
`{'path': ..., 'methods': ..., 'handler': ..., 'function': ...}`.
`func` is an `Option` because `AppValidator._validate_routes_exist`
guards on `route.get('function')`; the extractor always stores the node. -/
structure Route where
  path : String
  methods : List PyVal
  handler : String
  func : Option FuncDef
  deriving Repr

/-- `str.upper()` (ASCII as used by the decorator names). -/
def pyUpper (s : String) : String := ⟨s.data.map Char.toUpper⟩

/-- `name.split('.')[0]`: the segment before the first dot. -/
def firstDotComponent (s : String) : String :=
  ⟨s.data.takeWhile (fun c => c ≠ '.')⟩

/-- Python-dict lookup for the extractor's `self.constants` table. -/
def lookupConst : List (String × String) → String → Option String
  | [], _ => none
  | (k, v) :: rest, n => if k = n then some v else lookupConst rest n

/-- Python-dict update (`self.constants[var_name] = value`): the new
binding shadows any previous one. -/
def updateConst (m : List (String × String)) (k v : String) :
    List (String × String) :=
  (k, v) :: m

/-- `str(node.value)` for an `ast.Constant` node; `none` when the
expression is not a constant. -/
def constantStr : Expr → Option String
  | .constStr s => some s
  | .constInt n => some (toString n)
  | .constNone => some "None"
  | _ => none

/-- `SUPPORTED_DECORATORS` from `extractor.py`. -/
def SUPPORTED_DECORATORS : List String :=
  ["route", "get", "post", "put", "delete", "patch", "head", "options"]

mutual
/-- `RouteExtractor._try_evaluate_path`: constant-fold a path expression
over the extractor's constant table.  Constants go through `str(...)`,
`+` concatenates when both sides resolve, f-strings concatenate their
resolved segments, names are looked up in `self.constants`, everything
else is unresolved. -/
def tryEvaluatePath (consts : List (String × String)) : Expr → Option String
  | .constStr s => some s
  | .constInt n => some (toString n)
  | .constNone => some "None"
  | .binAdd l r =>
      match tryEvaluatePath consts l, tryEvaluatePath consts r with
      | some a, some b => some (a ++ b)
      | _, _ => none
  | .joined parts => joinedEvalPath consts parts
  | .name id => lookupConst consts id
  | _ => none
/-- The `ast.JoinedStr` loop of `_try_evaluate_path`: literal segments are
kept, formatted values are resolved recursively, any failure makes the
whole f-string unresolved. -/
def joinedEvalPath (consts : List (String × String)) :
    List JoinedValue → Option String
  | [] => some ""
  | .str s :: rest => (joinedEvalPath consts rest).map (fun t => s ++ t)
  | .formatted e :: rest =>
      match tryEvaluatePath consts e with
      | some v => (joinedEvalPath consts rest).map (fun t => v ++ t)
      | none => none
end

/-- `elt.value` for a constant element of a `methods=[...]` list; `none`
filters out non-constant elements, as the list comprehension's
`isinstance(elt, ast.Constant)` guard does. -/
def constantVal : Expr → Option PyVal
  | .constStr s => some (.str s)
  | .constInt n => some (.int n)
  | .constNone => some .noneV
  | _ => none

/-- The `methods` keyword scan for a generic `@app.route(...)` decorator:
start from the default `['GET']`; every `methods=` keyword whose value is
an `ast.List` replaces the method list with its constant elements,
verbatim. -/
def routeKwMethods (kwargs : List (Option String × Expr)) : List PyVal :=
  kwargs.foldl
    (fun ms kw =>
      match kw with
      | (some "methods", .listE elts) => elts.filterMap constantVal
      | _ => ms)
    [.str "GET"]

/-- `if self.app_name and decorator_obj != self.app_name` — the decorator
is skipped when an app binding is known and the decorated object differs. -/
def appMismatch : Option String → String → Bool
  | some a, obj => obj ≠ a
  | none, _ => false

/-- Extractor state: `self.routes`, `self.app_name`, `self.constants`.
(`self.functions` is also kept by the source but never read by any later
stage and is omitted.) -/
structure ExtractorState where
  routes : List Route
  appName : Option String
  constants : List (String × String)
  deriving Repr

/-- `path = self._try_evaluate_path(decorator.args[0])` when positional
arguments exist, else the initial `path = None`. -/
def decoratorPath (st : ExtractorState) (args : List Expr) : Option String :=
  match args with
  | [] => none
  | a :: _ => tryEvaluatePath st.constants a

/-- The method list of one decorator: the `methods` keyword scan for the
generic `route` decorator, the upper-cased decorator name otherwise. -/
def decoratorMethods (dname : String) (kwargs : List (Option String × Expr)) :
    List PyVal :=
  if dname = "route" then routeKwMethods kwargs else [.str (pyUpper dname)]

/-- `if path: self.routes.append({...})` — a route dictionary is appended
exactly when the resolved path is truthy (resolved and non-empty). -/
def emitRoute (st : ExtractorState) (f : FuncDef) (path : Option String)
    (methods : List PyVal) : ExtractorState :=
  match path with
  | some p =>
      if p = "" then st
      else { st with routes := st.routes ++ [⟨p, methods, f.nm, some f⟩] }
  | none => st

/-- One iteration of the decorator loop in
`RouteExtractor.visit_FunctionDef`: a call of the form
`<Name>.<method>(...)` with a recognized method name on the tracked app
binding resolves its first positional argument; a truthy resolved path
appends a route dictionary, anything else leaves the state unchanged. -/
def processDecorator (st : ExtractorState) (f : FuncDef) (d : Expr) :
    ExtractorState :=
  match d with
  | .call (.attr (.name obj) dname) args kwargs =>
      if dname ∈ SUPPORTED_DECORATORS then
        if appMismatch st.appName obj then st
        else emitRoute st f (decoratorPath st args) (decoratorMethods dname kwargs)
      else st
  | _ => st

/-- The `app = TurboX()` check of `RouteExtractor.visit_Assign`: a call to
the bare name `TurboX` assigned to a name overwrites `self.app_name`. -/
def visitAssignApp (st : ExtractorState) (targets : List Expr) (value : Expr) :
    ExtractorState :=
  match value, targets with
  | .call (.name "TurboX") _ _, .name t :: _ => { st with appName := some t }
  | _, _ => st

/-- `RouteExtractor.visit_Assign`: record `name = TurboX()` as the app
binding (each such assignment overwrites `self.app_name`), and record
`name = "literal"` in the constant table. -/
def visitAssign (st : ExtractorState) (targets : List Expr) (value : Expr) :
    ExtractorState :=
  let st1 := visitAssignApp st targets value
  match targets, value with
  | .name t :: _, .constStr s =>
      { st1 with constants := updateConst st1.constants t s }
  | _, _ => st1

mutual
/-- `ast.NodeVisitor` dispatch for the extractor.  `visit_FunctionDef`
processes the decorator list with the state as of the definition, then
`generic_visit` re-dispatches the body (so nested assignments and nested
function definitions are visited).  `AsyncFunctionDef` has no visitor and
falls through to `generic_visit`, which still dispatches its body. -/
def visitStmt (st : ExtractorState) : Stmt → ExtractorState
  | .assign targets value => visitAssign st targets value
  | .functionDef nm args decorators returns body =>
      let st1 := decorators.foldl
        (fun s d => processDecorator s ⟨nm, args, decorators, returns, body⟩ d) st
      visitStmts st1 body
  | .asyncFunctionDef _ _ _ _ body => visitStmts st body
  | _ => st
/-- Visit a statement list in order (children of `ast.Module` or of a
function body). -/
def visitStmts (st : ExtractorState) : List Stmt → ExtractorState
  | [] => st
  | s :: rest => visitStmts (visitStmt st s) rest
end

/-- Fresh extractor state (`RouteExtractor.__init__`). -/
def initState : ExtractorState := ⟨[], none, []⟩

/-- Run the extractor over a parsed module. -/
def runExtractor (tree : List Stmt) : ExtractorState := visitStmts initState tree

/-- `extract_routes`: the route list produced by one traversal. -/
def extractRoutes (tree : List Stmt) : List Route := (runExtractor tree).routes

mutual
/-- Total statement-node count of one statement (used to bound the
breadth-first traversal). -/
def stmtSize : Stmt → Nat
  | .functionDef _ _ _ _ body => 1 + stmtListSize body
  | .asyncFunctionDef _ _ _ _ body => 1 + stmtListSize body
  | _ => 1
/-- Total statement-node count of a statement list. -/
def stmtListSize : List Stmt → Nat
  | [] => 0
  | s :: rest => stmtSize s + stmtListSize rest
end

/-- Child statements of a statement (the only statement-valued fields are
function bodies). -/
def stmtChildren : Stmt → List Stmt
  | .functionDef _ _ _ _ body => body
  | .asyncFunctionDef _ _ _ _ body => body
  | _ => []

/-- Child statements of a whole breadth-first layer, in order. -/
def layerChildren : List Stmt → List Stmt
  | [] => []
  | s :: rest => stmtChildren s ++ layerChildren rest

/-- Breadth-first enumeration by layers, driven by a fuel argument; each
nonempty layer strictly shrinks the total size, so `stmtListSize` fuel is
always enough. -/
def walkFuel : Nat → List Stmt → List Stmt
  | 0, _ => []
  | _ + 1, [] => []
  | fuel + 1, s :: rest => (s :: rest) ++ walkFuel fuel (layerChildren (s :: rest))

/-- `ast.walk` restricted to statement nodes: breadth-first level order. -/
def walkLayers (tree : List Stmt) : List Stmt :=
  walkFuel (stmtListSize tree) tree

/-- A `ValidationError` (message only; location/suggestion/context fields
are never observed by any stated property). -/
structure VError where
  message : String
  deriving DecidableEq, Repr

/-- A `ValidationWarning` (message only). -/
structure VWarning where
  message : String
  deriving DecidableEq, Repr

/-- The scan inside `AppValidator._lookup_constant`: first assignment in
`ast.walk` order whose first target is the requested name and whose value
is a constant; a matching name with a non-constant value does not return
and the walk continues. -/
def firstAssignConst : List Stmt → String → Option String
  | [], _ => none
  | .assign (.name t :: _) v :: rest, nm =>
      if t = nm then
        match constantStr v with
        | some s => some s
        | none => firstAssignConst rest nm
      else firstAssignConst rest nm
  | _ :: rest, nm => firstAssignConst rest nm

/-- `AppValidator._lookup_constant`: look a module-level name up by
walking the whole tree. -/
def lookupConstTree (tree : List Stmt) (nm : String) : Option String :=
  firstAssignConst (walkLayers tree) nm

mutual
/-- `AppValidator._try_evaluate_expression`: same structural recursion as
the extractor's `_try_evaluate_path`, but names are resolved through
`_lookup_constant` over the whole tree. -/
def tryEvaluateExpr (tree : List Stmt) : Expr → Option String
  | .constStr s => some s
  | .constInt n => some (toString n)
  | .constNone => some "None"
  | .binAdd l r =>
      match tryEvaluateExpr tree l, tryEvaluateExpr tree r with
      | some a, some b => some (a ++ b)
      | _, _ => none
  | .joined parts => joinedEvalExpr tree parts
  | .name id => lookupConstTree tree id
  | _ => none
/-- The `ast.JoinedStr` loop of `_try_evaluate_expression`. -/
def joinedEvalExpr (tree : List Stmt) : List JoinedValue → Option String
  | [] => some ""
  | .str s :: rest => (joinedEvalExpr tree rest).map (fun t => s ++ t)
  | .formatted e :: rest =>
      match tryEvaluateExpr tree e with
      | some v => (joinedEvalExpr tree rest).map (fun t => v ++ t)
      | none => none
end

/-- `isinstance(path_arg, ast.Constant)`. -/
def isConstantExpr : Expr → Bool
  | .constStr _ => true
  | .constInt _ => true
  | .constNone => true
  | _ => false

/-- `AppValidator._validate_routes_exist`: an error for every route whose
`'function'` entry is missing (the extractor always stores it). -/
def validateRoutesExist (routes : List Route) : List VError :=
  routes.filterMap fun r =>
    match r.func with
    | none => some ⟨"Handler function '" ++ r.handler ++ "' not found"⟩
    | some _ => none

/-- `AppValidator._validate_handler_signatures` for one route: exactly one
parameter required (violation short-circuits the rest), then the parameter
annotation is checked against `Request` (missing annotation is a warning,
a non-`Name` annotation is ignored) and the return annotation against
`str` likewise. -/
def validateHandlerSignature (r : Route) : List VError × List VWarning :=
  match r.func with
  | none => ([], [])
  | some f =>
      match f.args with
      | [(pname, pann)] =>
          let d1 : List VError × List VWarning :=
            match pann with
            | none =>
                ([], [⟨"Handler '" ++ r.handler ++ "' parameter '" ++ pname
                       ++ "' missing type hint"⟩])
            | some (.name t) =>
                if t = "Request" then ([], [])
                else
                  ([⟨"Handler '" ++ r.handler
                     ++ "' parameter must be of type 'Request', got '" ++ t ++ "'"⟩], [])
            | some _ => ([], [])
          let d2 : List VError × List VWarning :=
            match f.returns with
            | none => ([], [⟨"Handler '" ++ r.handler ++ "' missing return type hint"⟩])
            | some (.name t) =>
                if t = "str" then ([], [])
                else ([⟨"Handler '" ++ r.handler ++ "' must return 'str', got '" ++ t ++ "'"⟩], [])
            | some _ => ([], [])
          (d1.1 ++ d2.1, d1.2 ++ d2.2)
      | _ =>
          ([⟨"Handler '" ++ r.handler ++ "' must accept exactly one parameter (request)"⟩], [])

/-- `type(value).__name__` for the constant payloads a return value can
carry. -/
def constTypeName : Expr → String
  | .constStr _ => "str"
  | .constInt _ => "int"
  | _ => "NoneType"

/-- All `ast.Return` nodes reachable from a function body
(`ast.walk(func_node)` restricted to `Return`, in level order). -/
def collectReturns (body : List Stmt) : List (Option Expr) :=
  (walkLayers body).filterMap fun s =>
    match s with
    | .ret v => some v
    | _ => none

/-- `AppValidator._validate_return_types` for one route: no return at all
is an error; otherwise each empty return and each return of a non-string
constant is an error. -/
def validateReturnTypes (r : Route) : List VError :=
  match r.func with
  | none => []
  | some f =>
      let rets := collectReturns f.body
      if rets.isEmpty then
        [⟨"Handler '" ++ r.handler ++ "' has no return statement"⟩]
      else
        rets.flatMap fun v =>
          match v with
          | none => [⟨"Handler '" ++ r.handler ++ "' has empty return statement"⟩]
          | some (.constInt n) =>
              [⟨"Handler '" ++ r.handler ++ "' returns non-string value: "
                ++ constTypeName (.constInt n)⟩]
          | some .constNone =>
              [⟨"Handler '" ++ r.handler ++ "' returns non-string value: "
                ++ constTypeName .constNone⟩]
          | some _ => []

/-- The `unsupported_imports` denylist of
`AppValidator._validate_unsupported_features`. -/
def bannedModule (m : String) : Bool :=
  m = "json" ∨ m = "requests" ∨ m = "asyncio" ∨ m = "threading" ∨ m = "multiprocessing"

/-- The base module a statement imports: `names[0].name.split('.')[0]` for
`ast.Import`, `module.split('.')[0]` for `ast.ImportFrom`. -/
def importedModule : Stmt → Option String
  | .importStmt (n :: _) => some (firstDotComponent n)
  | .importStmt [] => none
  | .importFrom (some m) _ => some (firstDotComponent m)
  | .importFrom none _ => none
  | _ => none

mutual
/-- Number of `ast.Lambda` nodes inside an expression (each one produces
one warning in `_validate_unsupported_features`). -/
def exprLambdas : Expr → Nat
  | .constStr _ => 0
  | .constInt _ => 0
  | .constNone => 0
  | .name _ => 0
  | .binAdd l r => exprLambdas l + exprLambdas r
  | .joined parts => joinedLambdas parts
  | .call fn args kwargs => exprLambdas fn + exprsLambdas args + kwargsLambdas kwargs
  | .attr obj _ => exprLambdas obj
  | .listE elts => exprsLambdas elts
  | .lam body => 1 + exprLambdas body
def exprsLambdas : List Expr → Nat
  | [] => 0
  | e :: rest => exprLambdas e + exprsLambdas rest
def joinedLambdas : List JoinedValue → Nat
  | [] => 0
  | .str _ :: rest => joinedLambdas rest
  | .formatted e :: rest => exprLambdas e + joinedLambdas rest
def kwargsLambdas : List (Option String × Expr) → Nat
  | [] => 0
  | (_, e) :: rest => exprLambdas e + kwargsLambdas rest
end

/-- The expressions held directly by one statement (its own fields, not
the fields of nested statements). -/
def stmtTopExprs : Stmt → List Expr
  | .assign targets value => targets ++ [value]
  | .functionDef _ args decorators returns _ =>
      decorators ++ args.filterMap (fun a => a.2) ++ returns.toList
  | .asyncFunctionDef _ args decorators returns _ =>
      decorators ++ args.filterMap (fun a => a.2) ++ returns.toList
  | .ret (some v) => [v]
  | .ret none => []
  | .exprStmt e => [e]
  | _ => []

/-- Lambdas appearing in a statement's own expressions. -/
def stmtLambdas (s : Stmt) : Nat := exprsLambdas (stmtTopExprs s)

/-- `AppValidator._validate_unsupported_features`: one walk over the tree;
denylisted imports and async function definitions are errors, every
lambda is a warning. -/
def validateUnsupported (tree : List Stmt) : List VError × List VWarning :=
  (walkLayers tree).foldl
    (fun acc s =>
      let es :=
        match importedModule s with
        | some m => if bannedModule m then acc.1 ++ [⟨"Unsupported import: " ++ m⟩] else acc.1
        | none => acc.1
      let es :=
        match s with
        | .asyncFunctionDef nm _ _ _ _ => es ++ [⟨"Async functions not supported: " ++ nm⟩]
        | _ => es
      (es, acc.2 ++ List.replicate (stmtLambdas s)
        ⟨"Lambda functions may not work correctly in Codon"⟩))
    ([], [])

/-- Whether an `ast.ImportFrom` with `module == 'turbox'` exists. -/
def hasTurboxImport (tree : List Stmt) : Bool :=
  (walkLayers tree).any fun s =>
    match s with
    | .importFrom (some m) _ => m = "turbox"
    | _ => false

/-- Whether a `turbox` import brings in the `Request` alias. -/
def hasRequestImport (tree : List Stmt) : Bool :=
  (walkLayers tree).any fun s =>
    match s with
    | .importFrom (some m) names => m = "turbox" && names.contains "Request"
    | _ => false

/-- `AppValidator._validate_imports`: warn when the `turbox` import is
missing, and warn per route whose first parameter is annotated `Request`
while `Request` is not imported. -/
def validateImports (tree : List Stmt) (routes : List Route) : List VWarning :=
  let w1 : List VWarning :=
    if hasTurboxImport tree then []
    else [⟨"Missing 'from turbox import TurboX' import"⟩]
  let w2 := routes.flatMap fun r =>
    match r.func with
    | some f =>
        match f.args with
        | (_, some (.name t)) :: _ =>
            if t = "Request" && !hasRequestImport tree then
              [⟨"Using 'Request' type but not importing it. Add: from turbox import Request"⟩]
            else []
        | _ => []
    | none => []
  w1 ++ w2

/-- `AppValidator._detect_dynamic_routes`: walk the whole tree; for every
function whose decorator is a call `<anything>.<recognized-name>(...)`
with a non-constant first argument, re-attempt constant evaluation and
warn when it fails.  (The surrounding `try`/`except` in the source is
unreachable: `_try_evaluate_expression` raises nothing.) -/
def detectDynamicRoutes (tree : List Stmt) : List VWarning :=
  (walkLayers tree).flatMap fun s =>
    match s with
    | .functionDef nm _ decorators _ _ =>
        decorators.flatMap fun d =>
          match d with
          | .call (.attr _ dname) (pathArg :: _) _ =>
              if dname ∈ SUPPORTED_DECORATORS then
                if isConstantExpr pathArg then []
                else
                  match tryEvaluateExpr tree pathArg with
                  | none =>
                      [⟨"Dynamic route path in '" ++ nm
                        ++ "' - path cannot be determined at build time"⟩]
                  | some _ => []
              else []
          | _ => []
    | _ => []

/-- `AppValidator.validate`: run the six checks in source order and return
the accumulated `(errors, warnings)`. -/
def validate (tree : List Stmt) (routes : List Route) :
    List VError × List VWarning :=
  let e1 := validateRoutesExist routes
  let d2 := routes.foldl
    (fun acc r =>
      let d := validateHandlerSignature r
      (acc.1 ++ d.1, acc.2 ++ d.2))
    (([], []) : List VError × List VWarning)
  let e3 := routes.flatMap validateReturnTypes
  let d4 := validateUnsupported tree
  let w5 := validateImports tree routes
  let w6 := detectDynamicRoutes tree
  (e1 ++ d2.1 ++ e3 ++ d4.1, d2.2 ++ d4.2 ++ w5 ++ w6)

/-- Text contributed by one `ast.JoinedStr` element inside a transliterated
`return` (`generate_handler_code`): literal segments verbatim, attribute
accesses become the placeholder token, bare names become an interpolation
slot, anything else contributes nothing. -/
def joinedPartText : JoinedValue → String
  | .str s => s
  | .formatted (.attr _ _) => "\x7b...\x7d"
  | .formatted (.name id) => "\x7b" ++ id ++ "\x7d"
  | .formatted _ => ""

/-- `''.join(str(p) for p in parts)`. -/
def joinedParts (parts : List JoinedValue) : String :=
  String.join (parts.map joinedPartText)

/-- One iteration of the body loop of `generate_handler_code`: a top-level
`return` of a constant or of an f-string is transliterated to a Codon
return line; every other statement is skipped. -/
def transliterateReturn : Stmt → Option String
  | .ret (some (.constStr v)) => some ("    return \"" ++ v ++ "\"")
  | .ret (some (.constInt n)) => some ("    return \"" ++ toString n ++ "\"")
  | .ret (some .constNone) => some ("    return \"None\"")
  | .ret (some (.joined parts)) => some ("    return \"" ++ joinedParts parts ++ "\"")
  | _ => none

/-- The generated body lines of `generate_handler_code`: the transliterated
top-level returns, or the synthesized fallback line when there are none. -/
def handlerBodyLines (handlerName : String) (body : List Stmt) : List String :=
  let lines := body.filterMap transliterateReturn
  if lines.isEmpty then
    ["    return \"Response from " ++ handlerName ++ "\""]
  else lines

/-- `generate_handler_code`: the full generated Codon function text for a
route (`route['function']` is always present when the extractor built the
route). -/
def generateHandlerCode (handlerName : String) (body : List Stmt) : String :=
  "\ndef " ++ handlerName ++ "(request: Request) -> str:\n"
    ++ String.intercalate "\n" (handlerBodyLines handlerName body) ++ "\n"

/-- Environment of one `build` invocation: whether the input file exists,
whether `check_codon_available()` succeeds (it probes `codon --version`),
whether the external compilation would succeed, and the parsed source. -/
structure BuildEnv where
  fileExists : Bool
  codonAvailable : Bool
  compileSucceeds : Bool
  source : List Stmt

/-- Outcome of `build`: the process exit status and whether
`compile_to_binary` (the external compilation) was invoked. -/
structure BuildOutcome where
  exitCode : Nat
  compilerInvoked : Bool
  deriving DecidableEq, Repr

/-- `turbox.build.build`: missing file and missing toolchain abort first;
zero extracted routes abort with status 1 before validation; validation
errors abort with status 1; otherwise generation always succeeds (pure
text) and the external compiler is invoked, its failure mapping to
status 1 and its success to status 0. -/
def build (env : BuildEnv) : BuildOutcome :=
  if !env.fileExists then ⟨1, false⟩
  else if !env.codonAvailable then ⟨1, false⟩
  else
    let routes := extractRoutes env.source
    if routes.isEmpty then ⟨1, false⟩
    else
      let d := validate env.source routes
      if !d.1.isEmpty then ⟨1, false⟩
      else if env.compileSucceeds then ⟨0, true⟩ else ⟨1, true⟩

/-- The fixed set of HTTP-method tokens named by the specification's
RouteDecl invariant. -/
def HTTP_METHOD_TOKENS : List String :=
  ["GET", "POST", "PUT", "DELETE", "PATCH", "HEAD", "OPTIONS"]

mutual
/-- No string-literal assignment (at any nesting depth) binds `x`: such
statements are exactly the ones that can change `constants[x]` during the
extractor's traversal. -/
def noStringAssignTo (x : String) : Stmt → Bool
  | .assign (.name t :: _) (.constStr _) => t ≠ x
  | .assign _ _ => true
  | .functionDef _ _ _ _ body => noStringAssignsTo x body
  | .asyncFunctionDef _ _ _ _ body => noStringAssignsTo x body
  | _ => true
/-- `noStringAssignTo` over a statement list. -/
def noStringAssignsTo (x : String) : List Stmt → Bool
  | [] => true
  | s :: rest => noStringAssignTo x s && noStringAssignsTo x rest
end

mutual
/-- No `name = TurboX()` binding (at any nesting depth): such statements
are exactly the ones that can change `self.app_name`. -/
def noTurboXAssign : Stmt → Bool
  | .assign (.name _ :: _) (.call (.name f) _ _) => f ≠ "TurboX"
  | .assign _ _ => true
  | .functionDef _ _ _ _ body => noTurboXAssigns body
  | .asyncFunctionDef _ _ _ _ body => noTurboXAssigns body
  | _ => true
/-- `noTurboXAssign` over a statement list. -/
def noTurboXAssigns : List Stmt → Bool
  | [] => true
  | s :: rest => noTurboXAssign s && noTurboXAssigns rest
end

/-- `app = TurboX()`. -/
def appAssign : Stmt := .assign [.name "app"] (.call (.name "TurboX") [] [])

/-- `X = "<v>"`. -/
def xAssign (v : String) : Stmt := .assign [.name "X"] (.constStr v)

/-- `@app.get(X)` decorating `def h(request: Request) -> str: return "ok"`,
after `app = TurboX()`, `X = "/a"`, `X = "/b"`: the program separating the
extractor's resolver from the validator's. -/
def progC1 : List Stmt :=
  [ appAssign,
    xAssign "/a",
    xAssign "/b",
    .functionDef "h" [("request", some (.name "Request"))]
      [.call (.attr (.name "app") "get") [.name "X"] []]
      (some (.name "str"))
      [.ret (some (.constStr "ok"))] ]

/-- A string assignment nested in a function body (`def setup(): P = "/nested"`)
followed by `@app.get(P)`: exercises `generic_visit` re-dispatching nested
assignments through `visit_Assign`. -/
def progC2 : List Stmt :=
  [ appAssign,
    .functionDef "setup" [] [] none
      [.assign [.name "P"] (.constStr "/nested")],
    .functionDef "h" [("request", some (.name "Request"))]
      [.call (.attr (.name "app") "get") [.name "P"] []]
      (some (.name "str"))
      [.ret (some (.constStr "ok"))] ]

/-- Two handlers: one decorated with a call-expression path
(`@app.get(get_path())`), one with a literal path (`@app.get("/static")`). -/
def progC4 : List Stmt :=
  [ appAssign,
    .functionDef "get_path" [] [] none
      [.ret (some (.constStr "/dynamic"))],
    .functionDef "dynamic_handler" [("request", some (.name "Request"))]
      [.call (.attr (.name "app") "get") [.call (.name "get_path") [] []] []]
      (some (.name "str"))
      [.ret (some (.constStr "Dynamic"))],
    .functionDef "static_handler" [("request", some (.name "Request"))]
      [.call (.attr (.name "app") "get") [.constStr "/static"] []]
      (some (.name "str"))
      [.ret (some (.constStr "Static"))] ]

/-- `@app.route("/x", methods=["foo"])`: a generic-route decorator whose
`methods` keyword holds a literal that is neither uppercase nor an HTTP
method token. -/
def progC5 : List Stmt :=
  [ appAssign,
    .functionDef "h" [("request", some (.name "Request"))]
      [.call (.attr (.name "app") "route") [.constStr "/x"]
        [(some "methods", .listE [.constStr "foo"])]]
      (some (.name "str"))
      [.ret (some (.constStr "ok"))] ]

/-- The canonical well-formed program of the specification's clean-handler
property: the `turbox` imports, the app binding, and one handler with a
literal decorator path, a `Request`-annotated single parameter, a `str`
return annotation and a single literal-string return. -/
def progC7 (hname pname ppath retstr : String) : List Stmt :=
  [ .importFrom (some "turbox") ["TurboX", "Request"],
    appAssign,
    .functionDef hname [(pname, some (.name "Request"))]
      [.call (.attr (.name "app") "get") [.constStr ppath] []]
      (some (.name "str"))
      [.ret (some (.constStr retstr))] ]

/-- Two `TurboX()` bindings (`app`, then `app2`) followed by a handler
decorated through the first one. -/
def progC8 : List Stmt :=
  [ appAssign,
    .assign [.name "app2"] (.call (.name "TurboX") [] []),
    .functionDef "h" [("request", some (.name "Request"))]
      [.call (.attr (.name "app") "get") [.constStr "/x"] []]
      (some (.name "str"))
      [.ret (some (.constStr "ok"))] ]

/-- Two `TurboX()` bindings with one handler on each: only the decorator
naming the most recent binding is extracted. -/
def progC8b : List Stmt :=
  [ appAssign,
    .assign [.name "app2"] (.call (.name "TurboX") [] []),
    .functionDef "h1" [("request", some (.name "Request"))]
      [.call (.attr (.name "app") "get") [.constStr "/x"] []]
      (some (.name "str"))
      [.ret (some (.constStr "a"))],
    .functionDef "h2" [("request", some (.name "Request"))]
      [.call (.attr (.name "app2") "get") [.constStr "/y"] []]
      (some (.name "str"))
      [.ret (some (.constStr "b"))] ]

/-- `@app.get("")`: a decorator whose path argument resolves to the empty
string. -/
def progC10 : List Stmt :=
  [ appAssign,
    .functionDef "h" [("request", some (.name "Request"))]
      [.call (.attr (.name "app") "get") [.constStr ""] []]
      (some (.name "str"))
      [.ret (some (.constStr "ok"))] ]

/-- The extractor's constant table after `X = "/a"`, later `X = "/b"`, and
any further statements `q`. -/
def constantsAfterReassign (st : ExtractorState) (pre mid q : List Stmt) :
    List (String × String) :=
  (visitStmts st (pre ++ [xAssign "/a"] ++ mid ++ [xAssign "/b"] ++ q)).constants

/-- The single route of `progC1`, used to witness the non-empty-path
invariant at a concrete input. -/
def routeC1 : Route :=
  ⟨"/b", [.str "GET"], "h",
    some ⟨"h", [("request", some (.name "Request"))],
      [.call (.attr (.name "app") "get") [.name "X"] []],
      some (.name "str"), [.ret (some (.constStr "ok"))]⟩⟩

theorem visitStmts_append (a b : List Stmt) (st : ExtractorState) :
    visitStmts st (a ++ b) = visitStmts (visitStmts st a) b := by
  induction a generalizing st with
  | nil => rfl
  | cons s rest ih => simp [visitStmts, ih]

theorem emitRoute_constants (st : ExtractorState) (f : FuncDef)
    (path : Option String) (methods : List PyVal) :
    (emitRoute st f path methods).constants = st.constants := by
  unfold emitRoute
  split
  · split <;> rfl
  · rfl

theorem emitRoute_appName (st : ExtractorState) (f : FuncDef)
    (path : Option String) (methods : List PyVal) :
    (emitRoute st f path methods).appName = st.appName := by
  unfold emitRoute
  split
  · split <;> rfl
  · rfl

theorem processDecorator_constants (st : ExtractorState) (f : FuncDef) (d : Expr) :
    (processDecorator st f d).constants = st.constants := by
  unfold processDecorator
  split
  · split
    · split
      · rfl
      · simp [emitRoute_constants]
    · rfl
  · rfl

theorem processDecorator_appName (st : ExtractorState) (f : FuncDef) (d : Expr) :
    (processDecorator st f d).appName = st.appName := by
  unfold processDecorator
  split
  · split
    · split
      · rfl
      · simp [emitRoute_appName]
    · rfl
  · rfl

theorem foldDecorators_constants (f : FuncDef) (ds : List Expr) (st : ExtractorState) :
    (ds.foldl (fun s d => processDecorator s f d) st).constants = st.constants := by
  induction ds generalizing st with
  | nil => rfl
  | cons d rest ih => simp [List.foldl, ih, processDecorator_constants]

theorem foldDecorators_appName (f : FuncDef) (ds : List Expr) (st : ExtractorState) :
    (ds.foldl (fun s d => processDecorator s f d) st).appName = st.appName := by
  induction ds generalizing st with
  | nil => rfl
  | cons d rest ih => simp [List.foldl, ih, processDecorator_appName]

theorem visitAssignApp_constants (st : ExtractorState) (ts : List Expr) (v : Expr) :
    (visitAssignApp st ts v).constants = st.constants := by
  unfold visitAssignApp
  split <;> rfl

theorem visitAssign_constants_lookup (x : String) (st : ExtractorState)
    (ts : List Expr) (v : Expr)
    (h : noStringAssignTo x (.assign ts v) = true) :
    lookupConst (visitAssign st ts v).constants x = lookupConst st.constants x := by
  cases ts with
  | nil => simp [visitAssign, visitAssignApp_constants]
  | cons t0 rest =>
    cases t0 <;> try simp [visitAssign, visitAssignApp_constants]
    case name t =>
      cases v <;> try simp [visitAssign, visitAssignApp_constants]
      case constStr s =>
        have hne : t ≠ x := by simpa [noStringAssignTo] using h
        simp [visitAssign, visitAssignApp, updateConst, lookupConst, hne]

mutual
theorem visitStmt_constants_lookup (x : String) (st : ExtractorState) :
    (s : Stmt) → noStringAssignTo x s = true →
    lookupConst (visitStmt st s).constants x = lookupConst st.constants x
  | .assign ts v, h => visitAssign_constants_lookup x st ts v h
  | .functionDef nm args decs rets body, h => by
      simp only [visitStmt]
      rw [visitStmts_constants_lookup x _ body (by simpa [noStringAssignTo] using h)]
      rw [foldDecorators_constants]
  | .asyncFunctionDef nm args decs rets body, h => by
      simp only [visitStmt]
      exact visitStmts_constants_lookup x st body (by simpa [noStringAssignTo] using h)
  | .importFrom _ _, _ => rfl
  | .importStmt _, _ => rfl
  | .ret _, _ => rfl
  | .exprStmt _, _ => rfl
  | .passStmt, _ => rfl
theorem visitStmts_constants_lookup (x : String) (st : ExtractorState) :
    (ss : List Stmt) → noStringAssignsTo x ss = true →
    lookupConst (visitStmts st ss).constants x = lookupConst st.constants x
  | [], _ => rfl
  | s :: rest, h => by
      have h12 : noStringAssignTo x s = true ∧ noStringAssignsTo x rest = true := by
        simpa [noStringAssignsTo] using h
      simp only [visitStmts]
      rw [visitStmts_constants_lookup x (visitStmt st s) rest h12.2,
          visitStmt_constants_lookup x st s h12.1]
end

theorem visitAssignApp_routes (st : ExtractorState) (ts : List Expr) (v : Expr) :
    (visitAssignApp st ts v).routes = st.routes := by
  unfold visitAssignApp
  split <;> rfl

theorem visitAssign_routes (st : ExtractorState) (ts : List Expr) (v : Expr) :
    (visitAssign st ts v).routes = st.routes := by
  unfold visitAssign
  split <;> simp [visitAssignApp_routes]

theorem visitAssign_appName (st : ExtractorState) (ts : List Expr) (v : Expr)
    (h : noTurboXAssign (.assign ts v) = true) :
    (visitAssign st ts v).appName = st.appName := by
  cases ts with
  | nil => simp [visitAssign, visitAssignApp]
  | cons t0 rest =>
    cases t0 <;> try simp [visitAssign, visitAssignApp]
    case name t =>
      cases v <;> try simp [visitAssign, visitAssignApp]
      case call fn args kwargs =>
        cases fn <;> try simp [visitAssign, visitAssignApp]
        case name f =>
          have hne : f ≠ "TurboX" := by simpa [noTurboXAssign] using h
          simp [visitAssign, visitAssignApp, hne]

mutual
theorem visitStmt_appName (st : ExtractorState) :
    (s : Stmt) → noTurboXAssign s = true →
    (visitStmt st s).appName = st.appName
  | .assign ts v, h => visitAssign_appName st ts v h
  | .functionDef nm args decs rets body, h => by
      simp only [visitStmt]
      rw [visitStmts_appName _ body (by simpa [noTurboXAssign] using h)]
      rw [foldDecorators_appName]
  | .asyncFunctionDef nm args decs rets body, h => by
      simp only [visitStmt]
      exact visitStmts_appName st body (by simpa [noTurboXAssign] using h)
  | .importFrom _ _, _ => rfl
  | .importStmt _, _ => rfl
  | .ret _, _ => rfl
  | .exprStmt _, _ => rfl
  | .passStmt, _ => rfl
theorem visitStmts_appName (st : ExtractorState) :
    (ss : List Stmt) → noTurboXAssigns ss = true →
    (visitStmts st ss).appName = st.appName
  | [], _ => rfl
  | s :: rest, h => by
      have h12 : noTurboXAssign s = true ∧ noTurboXAssigns rest = true := by
        simpa [noTurboXAssigns] using h
      simp only [visitStmts]
      rw [visitStmts_appName (visitStmt st s) rest h12.2, visitStmt_appName st s h12.1]
end

theorem emitRoute_path_ne (st : ExtractorState) (f : FuncDef)
    (path : Option String) (methods : List PyVal)
    (h : ∀ r ∈ st.routes, r.path ≠ "") :
    ∀ r ∈ (emitRoute st f path methods).routes, r.path ≠ "" := by
  unfold emitRoute
  split
  · next p =>
      split
      · exact h
      · next hp =>
          intro r hr
          rcases List.mem_append.mp hr with hmem | hmem
          · exact h r hmem
          · rcases List.mem_singleton.mp hmem with rfl
            exact hp
  · exact h

theorem processDecorator_path_ne (st : ExtractorState) (f : FuncDef) (d : Expr)
    (h : ∀ r ∈ st.routes, r.path ≠ "") :
    ∀ r ∈ (processDecorator st f d).routes, r.path ≠ "" := by
  unfold processDecorator
  split
  · split
    · split
      · exact h
      · exact emitRoute_path_ne _ _ _ _ h
    · exact h
  · exact h

theorem foldDecorators_path_ne (f : FuncDef) (ds : List Expr) (st : ExtractorState)
    (h : ∀ r ∈ st.routes, r.path ≠ "") :
    ∀ r ∈ (ds.foldl (fun s d => processDecorator s f d) st).routes, r.path ≠ "" := by
  induction ds generalizing st with
  | nil => exact h
  | cons d rest ih => exact ih _ (processDecorator_path_ne st f d h)

mutual
theorem visitStmt_path_ne (st : ExtractorState) :
    (s : Stmt) → (∀ r ∈ st.routes, r.path ≠ "") →
    ∀ r ∈ (visitStmt st s).routes, r.path ≠ ""
  | .assign ts v, h => by
      intro r hr
      simp only [visitStmt, visitAssign_routes] at hr
      exact h r hr
  | .functionDef nm args decs rets body, h => by
      simp only [visitStmt]
      exact visitStmts_path_ne _ body (foldDecorators_path_ne _ decs st h)
  | .asyncFunctionDef nm args decs rets body, h => by
      simp only [visitStmt]
      exact visitStmts_path_ne st body h
  | .importFrom _ _, h => h
  | .importStmt _, h => h
  | .ret _, h => h
  | .exprStmt _, h => h
  | .passStmt, h => h
theorem visitStmts_path_ne (st : ExtractorState) :
    (ss : List Stmt) → (∀ r ∈ st.routes, r.path ≠ "") →
    ∀ r ∈ (visitStmts st ss).routes, r.path ≠ ""
  | [], h => h
  | s :: rest, h => by
      simp only [visitStmts]
      exact visitStmts_path_ne (visitStmt st s) rest (visitStmt_path_ne st s h)
end

mutual
theorem evalAgreeExpr (consts : List (String × String)) (tree : List Stmt)
    (h : ∀ n, lookupConst consts n = lookupConstTree tree n) :
    (e : Expr) → tryEvaluatePath consts e = tryEvaluateExpr tree e
  | .constStr _ => rfl
  | .constInt _ => rfl
  | .constNone => rfl
  | .name id => by
      simp only [tryEvaluatePath, tryEvaluateExpr]
      exact h id
  | .binAdd l r => by
      simp only [tryEvaluatePath, tryEvaluateExpr,
        evalAgreeExpr consts tree h l, evalAgreeExpr consts tree h r]
  | .joined ps => by
      simp only [tryEvaluatePath, tryEvaluateExpr]
      exact evalAgreeJoined consts tree h ps
  | .call _ _ _ => rfl
  | .attr _ _ => rfl
  | .listE _ => rfl
  | .lam _ => rfl
theorem evalAgreeJoined (consts : List (String × String)) (tree : List Stmt)
    (h : ∀ n, lookupConst consts n = lookupConstTree tree n) :
    (ps : List JoinedValue) → joinedEvalPath consts ps = joinedEvalExpr tree ps
  | [] => rfl
  | .str s :: rest => by
      simp only [joinedEvalPath, joinedEvalExpr, evalAgreeJoined consts tree h rest]
  | .formatted e :: rest => by
      simp only [joinedEvalPath, joinedEvalExpr,
        evalAgreeExpr consts tree h e, evalAgreeJoined consts tree h rest]
end

/-- C1 counterexample: on `app = TurboX(); X = "/a"; X = "/b";
@app.get(X) def h(request: Request) -> str: return "ok"`, the Extractor's
resolver (`_try_evaluate_path` over its ConstantTable, where the most
recent assignment shadows) yields `"/b"` — and the extracted route carries
path `"/b"` — while the Validator's evaluator
(`_try_evaluate_expression` with `_lookup_constant`, which returns the
first matching assignment found while walking the whole tree) yields
`"/a"`.  The two passes therefore do not share the same path-resolution
function: on this program and this decorator path expression they resolve
to different strings. -/
theorem validator_extractor_resolution_disagree :
    tryEvaluatePath (runExtractor progC1).constants (.name "X") = some "/b"
    ∧ tryEvaluateExpr progC1 (.name "X") = some "/a"
    ∧ (extractRoutes progC1).map Route.path = ["/b"] :=
  ⟨rfl, rfl, rfl⟩

/-- C1 (amended): the Validator's evaluator and the Extractor's resolver
implement the same structural recursion over path expressions — literals,
concatenation, and template interpolation are folded identically — and
they return identical results on every expression whenever their
name-lookup environments agree; they are nevertheless distinct functions,
because the extractor looks names up in its ConstantTable (last
string-literal assignment visited so far) while the validator's
`_lookup_constant` returns the first constant assignment (of any constant
type) in whole-tree walk order. -/
theorem resolution_agrees_when_lookups_agree (consts : List (String × String))
    (tree : List Stmt)
    (h : ∀ n, lookupConst consts n = lookupConstTree tree n) :
    ∀ e, tryEvaluatePath consts e = tryEvaluateExpr tree e :=
  fun e => evalAgreeExpr consts tree h e

/-- Witness for the amended C1 theorem at a concrete instance: over the
empty table and the empty tree both lookups are empty, and the two
evaluators agree on a name reference. -/
theorem resolution_agrees_when_lookups_agree_witness :
    tryEvaluatePath [] (.name "X") = tryEvaluateExpr [] (.name "X") :=
  resolution_agrees_when_lookups_agree [] [] (fun _ => rfl) (.name "X")

/-- C2: the claim that only module-level assignments populate the
ConstantTable is the documented intent, but `visit_FunctionDef` ends in
`generic_visit`, which re-dispatches statements nested inside the function
body through `visit_Assign`; on `def setup(): P = "/nested"` followed by
`@app.get(P)`, the function-local binding `P` enters the table and even
resolves the later route.  (The other two parts of the claim hold: a
non-string right-hand side and an import never add entries —
`visit_Assign` requires a string `ast.Constant` value, and import
statements are never dispatched to `visit_Assign`.) -/
theorem nested_assign_pollutes_constant_table :
    lookupConst (runExtractor progC2).constants "P" = some "/nested"
    ∧ (extractRoutes progC2).map (fun r => (r.path, r.handler)) = [("/nested", "h")] :=
  ⟨rfl, rfl⟩

/-- C3: last-write-wins for reassigned module constants.  If `X` is bound
to `"/a"` and later rebound to `"/b"`, then at any point of the traversal
after the second assignment from which no further string-literal
assignment to `X` has occurred (at any nesting depth), a route-decorator
path referencing `X` directly resolves to `"/b"`, a concatenation
resolves using `"/b"` for the `X` operand, and a template interpolation
of `X` contributes `"/b"`. -/
theorem reassigned_constant_resolves_last_write (st : ExtractorState)
    (pre mid q : List Stmt) (hq : noStringAssignsTo "X" q = true) :
    tryEvaluatePath (constantsAfterReassign st pre mid q) (.name "X") = some "/b"
    ∧ (∀ (e : Expr) (s : String),
        tryEvaluatePath (constantsAfterReassign st pre mid q) e = some s →
        tryEvaluatePath (constantsAfterReassign st pre mid q) (.binAdd (.name "X") e)
            = some ("/b" ++ s)
        ∧ tryEvaluatePath (constantsAfterReassign st pre mid q) (.binAdd e (.name "X"))
            = some (s ++ "/b"))
    ∧ (∀ (ps : List JoinedValue) (sp : String),
        joinedEvalPath (constantsAfterReassign st pre mid q) ps = some sp →
        tryEvaluatePath (constantsAfterReassign st pre mid q)
            (.joined (.formatted (.name "X") :: ps)) = some ("/b" ++ sp)) := by
  have hX : lookupConst (constantsAfterReassign st pre mid q) "X" = some "/b" := by
    unfold constantsAfterReassign
    rw [visitStmts_append, visitStmts_constants_lookup "X" _ q hq, visitStmts_append]
    simp [visitStmts, visitStmt, visitAssign, visitAssignApp, xAssign, updateConst, lookupConst]
  have hXe : tryEvaluatePath (constantsAfterReassign st pre mid q) (.name "X") = some "/b" := hX
  refine ⟨hXe, ?_, ?_⟩
  · intro e s hs
    constructor
    · simp [tryEvaluatePath, hX, hs]
    · simp [tryEvaluatePath, hX, hs]
  · intro ps sp hps
    simp [tryEvaluatePath, joinedEvalPath, hX, hps]

/-- Witness for C3 at a concrete instance: empty surrounding program,
then a trailing `pass`; the direct reference and a concatenation resolve
with `"/b"`. -/
theorem reassigned_constant_resolves_last_write_witness :
    noStringAssignsTo "X" [Stmt.passStmt] = true
    ∧ tryEvaluatePath (constantsAfterReassign initState [] [] [Stmt.passStmt])
        (.name "X") = some "/b"
    ∧ tryEvaluatePath (constantsAfterReassign initState [] [] [Stmt.passStmt])
        (.binAdd (.name "X") (.constStr "/u")) = some ("/b" ++ "/u") := by
  have h := reassigned_constant_resolves_last_write initState [] [] [Stmt.passStmt] rfl
  exact ⟨rfl, h.1, (h.2.1 (.constStr "/u") "/u" rfl).1⟩

/-- C4: a route decorator whose path argument is a call expression never
resolves (`_try_evaluate_path` returns `None` for any `ast.Call`) and
never appends a route — the extractor drops the candidate silently, having
no error channel at all (`RouteExtractor` accumulates only routes).  On
the concrete two-handler program, only the sibling literal-path decorator
yields its route, and the Validator's separate whole-tree pass emits the
warning naming the handler whose path cannot be determined. -/
theorem call_path_dropped_silently_sibling_kept :
    (∀ (consts : List (String × String)) (fn : Expr) (fargs : List Expr)
        (fkwargs : List (Option String × Expr)),
        tryEvaluatePath consts (.call fn fargs fkwargs) = none)
    ∧ (∀ (st : ExtractorState) (f : FuncDef) (obj m : String) (fn : Expr)
        (fargs restArgs : List Expr) (fkwargs kwargs : List (Option String × Expr)),
        (processDecorator st f
            (.call (.attr (.name obj) m) (.call fn fargs fkwargs :: restArgs) kwargs)).routes
          = st.routes)
    ∧ (extractRoutes progC4).map (fun r => (r.path, r.handler))
        = [("/static", "static_handler")]
    ∧ (⟨"Dynamic route path in 'dynamic_handler' - path cannot be determined at build time"⟩
        : VWarning) ∈ (validate progC4 (extractRoutes progC4)).2 := by
  refine ⟨fun _ _ _ _ => rfl, ?_, rfl, by decide⟩
  intro st f obj m fn fargs restArgs fkwargs kwargs
  simp only [processDecorator]
  split
  · split
    · rfl
    · rfl
  · rfl

/-- C5 counterexample: on `@app.route("/x", methods=["foo"])` the
extractor emits a RouteDecl whose method list is exactly `["foo"]` — a
token that is neither uppercase nor drawn from the fixed set of
HTTP-method tokens, because the `methods=[...]` elements are stored
verbatim with no normalization or membership check. -/
theorem route_methods_not_normalized :
    (extractRoutes progC5).map Route.methods = [[PyVal.str "foo"]]
    ∧ ¬ ("foo" ∈ HTTP_METHOD_TOKENS)
    ∧ pyUpper "foo" ≠ "foo" :=
  ⟨rfl, by decide, by decide⟩

/-- C5 (amended): for a named-method decorator
(`get/post/put/delete/patch/head/options`) the method set is exactly the
single upper-cased decorator name, which is non-empty, uppercase and drawn
from the fixed set of HTTP-method tokens; for the generic `route`
decorator the set defaults to `['GET']` when no `methods` keyword is
present, and when a `methods=[...]` keyword is present the set is the
list of its constant elements taken verbatim — with no non-emptiness,
uppercase or fixed-set guarantee. -/
theorem methods_extraction_amended :
    (∀ (st : ExtractorState) (f : FuncDef) (m p : String)
        (kwargs : List (Option String × Expr)),
        st.appName = some "app" → m ∈ SUPPORTED_DECORATORS → m ≠ "route" → p ≠ "" →
        (processDecorator st f (.call (.attr (.name "app") m) [.constStr p] kwargs)).routes
            = st.routes ++ [⟨p, [.str (pyUpper m)], f.nm, some f⟩]
        ∧ pyUpper m ∈ HTTP_METHOD_TOKENS)
    ∧ routeKwMethods [] = [.str "GET"]
    ∧ (∀ (elts : List Expr),
        routeKwMethods [(some "methods", .listE elts)] = elts.filterMap constantVal) := by
  refine ⟨?_, rfl, fun elts => rfl⟩
  intro st f m p kwargs happ hm hroute hp
  constructor
  · simp only [processDecorator, if_pos hm, happ, appMismatch, decoratorPath,
      tryEvaluatePath, decoratorMethods, if_neg hroute, emitRoute, if_neg hp]
    simp
  · simp only [SUPPORTED_DECORATORS, List.mem_cons, List.not_mem_nil, or_false] at hm
    rcases hm with rfl | rfl | rfl | rfl | rfl | rfl | rfl | rfl
    · exact absurd rfl hroute
    all_goals decide

/-- Witness for the amended C5 theorem: a concrete `@app.get("/x")`
decorator on a tracked app binding appends exactly the singleton `GET`
route. -/
theorem methods_extraction_amended_witness :
    (processDecorator ⟨[], some "app", []⟩ ⟨"h", [], [], none, []⟩
        (.call (.attr (.name "app") "get") [.constStr "/x"] [])).routes
      = [⟨"/x", [.str "GET"], "h", some ⟨"h", [], [], none, []⟩⟩]
    ∧ pyUpper "get" ∈ HTTP_METHOD_TOKENS := by
  have h := (methods_extraction_amended.1 ⟨[], some "app", []⟩ ⟨"h", [], [], none, []⟩
    "get" "/x" [] rfl (by decide) (by decide) (by decide))
  exact ⟨h.1, h.2⟩

/-- C6: whenever route extraction yields zero routes, `build` terminates
with exit status 1 and `compile_to_binary` (the external compilation) is
never invoked.  (`check_codon_available` probes `codon --version` earlier
regardless; the specification treats that reachability check as a distinct
step from invoking the compiler on the generated artifact.) -/
theorem build_zero_routes_exits_nonzero (env : BuildEnv)
    (hzero : extractRoutes env.source = []) :
    build env = ⟨1, false⟩ := by
  unfold build
  split
  · rfl
  · split
    · rfl
    · simp [hzero]

/-- Witness for C6: the empty module extracts no routes and `build` on it
exits 1 without invoking the compiler, even with the toolchain present. -/
theorem build_zero_routes_exits_nonzero_witness :
    build ⟨true, true, true, []⟩ = ⟨1, false⟩ :=
  build_zero_routes_exits_nonzero ⟨true, true, true, []⟩ rfl

/-- C7: for every handler name, parameter name, literal decorator path and
literal return string, the canonical containing program (the `turbox`
imports including `Request`, the `app = TurboX()` binding, and the handler
with exactly one `Request`-annotated parameter, a `str` return annotation,
and a single literal-string return) validates with zero errors and zero
warnings. -/
theorem clean_handler_validates_clean (hname pname ppath retstr : String) :
    validate (progC7 hname pname ppath retstr)
        (extractRoutes (progC7 hname pname ppath retstr))
      = ([], []) := by
  by_cases hp : ppath = ""
  · subst hp
    rfl
  · have hroutes : extractRoutes (progC7 hname pname ppath retstr) =
        [⟨ppath, [.str "GET"], hname,
          some ⟨hname, [(pname, some (.name "Request"))],
            [.call (.attr (.name "app") "get") [.constStr ppath] []],
            some (.name "str"), [.ret (some (.constStr retstr))]⟩⟩] := by
      simp [extractRoutes, runExtractor, progC7, appAssign, initState, visitStmts,
        visitStmt, visitAssign, visitAssignApp, processDecorator, SUPPORTED_DECORATORS,
        appMismatch, decoratorPath, decoratorMethods, tryEvaluatePath, emitRoute,
        routeKwMethods, pyUpper, hp]
    rw [hroutes]
    rfl

/-- C8 counterexample: on `app = TurboX(); app2 = TurboX();
@app.get("/x") def h...`, the tracked application binding after traversal
is `app2` — the most recent `TurboX()` binding, not the first — and the
decorator naming the first binding `app` is skipped, so no route is
extracted.  Under the claim ("only the first such binding is
authoritative") the decorator would match and the route would exist. -/
theorem first_binding_not_authoritative :
    (runExtractor progC8).appName = some "app2"
    ∧ (runExtractor progC8).appName ≠ some "app"
    ∧ extractRoutes progC8 = [] :=
  ⟨rfl, by decide, rfl⟩

/-- C8 (amended): the most recent `name = TurboX()` binding in traversal
order is the authoritative tracked application binding: every
`name = TurboX()` assignment overwrites it unconditionally, statements
containing no such binding (at any nesting depth) preserve it, and on the
two-binding program only the decorator naming the most recent binding
(`app2`) produces a route. -/
theorem most_recent_binding_authoritative :
    (∀ (st : ExtractorState) (q : List Stmt), noTurboXAssigns q = true →
        (visitStmts st q).appName = st.appName)
    ∧ (∀ (st : ExtractorState) (b : String) (rest : List Expr)
        (cargs : List Expr) (ckwargs : List (Option String × Expr)),
        (visitStmt st (.assign (.name b :: rest)
            (.call (.name "TurboX") cargs ckwargs))).appName = some b)
    ∧ (extractRoutes progC8b).map (fun r => (r.path, r.handler)) = [("/y", "h2")] := by
  refine ⟨?_, fun st b rest cargs ckwargs => rfl, rfl⟩
  intro st q hq
  exact visitStmts_appName st q hq

/-- Witness for the amended C8 theorem: a trailing `pass` preserves a
previously tracked binding. -/
theorem most_recent_binding_authoritative_witness :
    noTurboXAssigns [Stmt.passStmt] = true
    ∧ (visitStmts ⟨[], some "app", []⟩ [Stmt.passStmt]).appName = some "app" :=
  ⟨rfl, most_recent_binding_authoritative.1 ⟨[], some "app", []⟩ [Stmt.passStmt] rfl⟩

theorem transliterateReturn_shape (s : Stmt) (t : String)
    (h : transliterateReturn s = some t) : ∃ rest, t = "    return \"" ++ rest := by
  unfold transliterateReturn at h
  split at h <;> simp_all
  case h_1 v => exact ⟨v ++ "\"", by rw [← h, String.append_assoc]⟩
  case h_2 n => exact ⟨toString n ++ "\"", by rw [← h, String.append_assoc]⟩
  case h_3 => exact ⟨"None\"", by rw [← h]; rfl⟩
  case h_4 parts => exact ⟨joinedParts parts ++ "\"", by rw [← h, String.append_assoc]⟩

/-- C9: the generated handler body always contains at least one return
statement: every generated line is a `return "` line, every recognized
top-level return (a constant or an f-string) is transliterated into the
generated body, and when the handler body contains no recognized return
the generated body is exactly the synthesized literal
`return "Response from <handlerName>"`. -/
theorem generated_handler_always_returns (hname : String) (body : List Stmt) :
    handlerBodyLines hname body ≠ []
    ∧ (∀ l ∈ handlerBodyLines hname body, ∃ rest, l = "    return \"" ++ rest)
    ∧ (∀ s ∈ body, ∀ t, transliterateReturn s = some t →
        t ∈ handlerBodyLines hname body)
    ∧ ((∀ s ∈ body, transliterateReturn s = none) →
        handlerBodyLines hname body
          = ["    return \"Response from " ++ hname ++ "\""]) := by
  refine ⟨?_, ?_, ?_, ?_⟩
  · simp only [handlerBodyLines]
    split
    · simp
    · next hne => simpa [List.isEmpty_iff] using hne
  · intro l hl
    simp only [handlerBodyLines] at hl
    split at hl
    · simp at hl
      subst hl
      exact ⟨"Response from " ++ hname ++ "\"", by rw [String.append_assoc]; rfl⟩
    · rcases List.mem_filterMap.mp hl with ⟨s, _, hs⟩
      exact transliterateReturn_shape s l hs
  · intro s hs t ht
    have hmem : t ∈ body.filterMap transliterateReturn :=
      List.mem_filterMap.mpr ⟨s, hs, ht⟩
    simp only [handlerBodyLines]
    split
    · next he =>
        rw [List.isEmpty_iff.mp he] at hmem
        cases hmem
    · exact hmem
  · intro hall
    simp only [handlerBodyLines]
    rw [List.filterMap_eq_nil_iff.mpr hall]
    rfl

/-- Witness for C9 at a concrete handler with one literal return: the
transliterated line appears and the body is non-empty. -/
theorem generated_handler_always_returns_witness :
    handlerBodyLines "hello" [Stmt.ret (some (.constStr "Hi"))] ≠ []
    ∧ "    return \"Hi\"" ∈ handlerBodyLines "hello" [Stmt.ret (some (.constStr "Hi"))] := by
  have h := generated_handler_always_returns "hello" [Stmt.ret (some (.constStr "Hi"))]
  exact ⟨h.1, h.2.2.1 _ (List.mem_singleton.mpr rfl) _ rfl⟩

/-- C10: every route the extractor emits has a non-empty path — the
emission guard `if path:` tests the truthiness of the resolved string, so
both an unresolved path and a path resolved to `""` are dropped; in
particular `@app.get("")` produces no RouteDecl at all. -/
theorem routes_have_nonempty_path :
    (∀ (tree : List Stmt), ∀ r ∈ extractRoutes tree, r.path ≠ "")
    ∧ extractRoutes progC10 = [] := by
  constructor
  · intro tree r hr
    refine visitStmts_path_ne initState tree ?_ r hr
    intro r0 h0
    cases h0
  · rfl

/-- Witness for C10 at a concrete input: the route extracted from
`progC1` has the non-empty path `"/b"`. -/
theorem routes_have_nonempty_path_witness : routeC1.path ≠ "" := by
  refine routes_have_nonempty_path.1 progC1 routeC1 ?_
  have h : extractRoutes progC1 = [routeC1] := rfl
  rw [h]
  exact List.mem_singleton.mpr rfl
